import Mathlib

/-!
Verification development for the task-lifecycle orchestrator.

The definitions below are shallow embeddings of the Python source files
`src/main.py`, `src/src/action_runner.py`, `src/src/utils/file_operations.py`,
`src/src/utils/helpers.py` and `src/src/skills/accounting_odoo_skill.py`.
Python dictionaries are modelled as association lists with string keys and
string values, directories as association lists from file name to file
content, and wall-clock time as natural-number ticks.
-/

namespace Orchestrator

/-! ## Python dictionary model

Association lists with first-match lookup.  `dset` mirrors `d[k] = v`
(replace in place when the key exists, append otherwise), `derase` mirrors
`d.pop(k)` / key removal. -/

abbrev Dict := List (String × String)

def dlookup : Dict → String → Option String
  | [], _ => none
  | (k', v) :: rest, k => if k' = k then some v else dlookup rest k

def dcontains (m : Dict) (k : String) : Bool :=
  (dlookup m k).isSome

def dset : Dict → String → String → Dict
  | [], k, v => [(k, v)]
  | (k', v') :: rest, k, v =>
    if k' = k then (k', v) :: rest else (k', v') :: dset rest k v

def derase : Dict → String → Dict
  | [], _ => []
  | (k', v) :: rest, k =>
    if k' = k then derase rest k else (k', v) :: derase rest k

/-! ## Python value model

`parse_action_file` can return `None`, a string (a YAML bare scalar) or a
dictionary; `PyVal` covers exactly these shapes. -/

inductive PyVal where
  | pnone
  | pstr (s : String)
  | pdict (m : Dict)
deriving DecidableEq, Repr

/-- Python truthiness for the values `parse_action_file` can produce:
`None`, the empty string and the empty dict are falsy. -/
def PyVal.truthy : PyVal → Bool
  | .pnone => false
  | .pstr s => s ≠ ""
  | .pdict m => ¬ m.isEmpty

def PyVal.isDict : PyVal → Bool
  | .pdict _ => true
  | _ => false

/-! ## String helpers mirroring the Python operations used by the source

These are implemented by structural recursion on the character list of the
string (rather than through the byte-position-based core functions) so that
every definition in this file evaluates by kernel reduction. -/

/-- The whitespace characters stripped by Python `str.strip()`. -/
def charIsSpace (c : Char) : Bool :=
  c = ' ' || c = '\t' || c = '\n' || c = '\r' ||
    c = Char.ofNat 11 || c = Char.ofNat 12

/-- Python `s.strip()`. -/
def pyStrip (s : String) : String :=
  ⟨((s.toList.dropWhile charIsSpace).reverse.dropWhile charIsSpace).reverse⟩

def charLower (c : Char) : Char :=
  if 'A' ≤ c ∧ c ≤ 'Z' then Char.ofNat (c.toNat + 32) else c

/-- Python `s.lower()` (ASCII range, which covers the field names and
action types compared by the source). -/
def pyLower (s : String) : String :=
  ⟨s.toList.map charLower⟩

/-- Python `s.startswith(pre)`. -/
def pyStartsWith (s pre : String) : Bool :=
  List.isPrefixOf pre.toList s.toList

/-- Python `c in s` for a single character. -/
def pyContainsChar (s : String) (c : Char) : Bool :=
  s.toList.contains c

/-- Splitting worker: scan left to right, cutting at each non-overlapping
occurrence of the (nonempty) separator.  The fuel is at least the length
of the remaining text plus one, so it never runs out. -/
def csSplitOnAux (sep : List Char) :
    Nat → List Char → List Char → List (List Char)
  | 0, s, acc => [acc.reverse ++ s]
  | fuel + 1, s, acc =>
    match s with
    | [] => [acc.reverse]
    | c :: rest =>
      if List.isPrefixOf sep (c :: rest) then
        acc.reverse ::
          csSplitOnAux sep fuel (List.drop sep.length (c :: rest)) []
      else csSplitOnAux sep fuel rest (c :: acc)

/-- Python `s.split(sep)` for a nonempty separator. -/
def pySplitOn (s sep : String) : List String :=
  if sep.toList.isEmpty then [s]
  else (csSplitOnAux sep.toList (s.toList.length + 1) s.toList []).map
    (fun cs => ⟨cs⟩)

/-- Python `line.split(':', 1)`: split at the first colon, keeping the rest
(including later colons) as the second component.  Only called on lines that
contain a colon. -/
def splitColon1 (line : String) : String × String :=
  match pySplitOn line ":" with
  | [] => (line, "")
  | [x] => (x, "")
  | x :: rest => (x, String.intercalate ":" rest)

/-- Substring containment (`needle in hay` in Python, `*needle*` glob match
against a file name).  For a nonempty needle, the split at the needle has at
least two pieces exactly when the needle occurs in the haystack. -/
def containsSubstr (hay needle : String) : Bool :=
  decide (needle = "") || decide (2 ≤ (pySplitOn hay needle).length)

/-- Index of the last dot in a character list, if any. -/
def lastIdxOfDot : List Char → Option Nat
  | [] => none
  | c :: rest =>
    match lastIdxOfDot rest with
    | some i => some (i + 1)
    | none => if c = '.' then some 0 else none

/-- Python `pathlib` stem/suffix split of a file NAME: the suffix starts at
the last dot provided that dot is neither the first nor the last character;
otherwise the suffix is empty and the stem is the whole name. -/
def pathStemSuffix (name : String) : String × String :=
  let cs := name.toList
  match lastIdxOfDot cs with
  | some i =>
    if 0 < i ∧ i + 1 < cs.length then (⟨cs.take i⟩, ⟨cs.drop i⟩)
    else (name, "")
  | none => (name, "")

/-- Python `str(path)` base name: the component after the last slash. -/
def pathFileName (p : String) : String :=
  ((pySplitOn p "/").getLast?).getD p

/-- `pathlib.Path(p).stem`: base name without its final suffix. -/
def pathStem (p : String) : String :=
  (pathStemSuffix (pathFileName p)).1

/-- Python slicing `s[:n]` on strings. -/
def pyStrTake (s : String) (n : Nat) : String :=
  ⟨s.toList.take n⟩

/-! ## Model of `yaml.safe_load` (tier 1 of the parser)

`yaml.safe_load` is an external library; the model below restricts it to
the input shapes that occur in this development, following the YAML block
grammar: an all-blank document loads as `None`; a document whose nonempty
lines are all `key: value` entries (colon followed by a space, nonempty key
and value) loads as a mapping of strings; a single plain line with no colon
and no flow/indicator leading character loads as a bare string scalar; a
mixture of mapping lines and plain lines, or an unclosed flow collection
such as a line starting with `[`, raises a `YAMLError`. -/

def yamlMapLine (l : String) : Option (String × String) :=
  if pyContainsChar l ':' then
    let kv := splitColon1 l
    if pyStrip kv.1 ≠ "" ∧ pyStartsWith kv.2 " " ∧ pyStrip kv.2 ≠ "" then
      some (pyStrip kv.1, pyStrip kv.2)
    else none
  else none

def yamlIndicatorChars : List String :=
  ["[", "\x7b", "-", "#", "&", "*", "!", "|", ">", "%", "@"]

def yamlPlainScalar (l : String) : Bool :=
  decide (l ≠ "") && !(pyContainsChar l ':') &&
    !(yamlIndicatorChars.any (fun c => pyStartsWith l c))

def yamlSafeLoad (content : String) : Except Unit PyVal :=
  let ls := ((pySplitOn content "\n").map pyStrip).filter
    (fun l => decide (l ≠ ""))
  if ls.isEmpty then .ok .pnone
  else if ls.all (fun l => (yamlMapLine l).isSome) then
    .ok (.pdict (ls.filterMap yamlMapLine))
  else
    match ls with
    | [l] => if yamlPlainScalar l then .ok (.pstr l) else .error ()
    | _ => .error ()

/-! ## `ActionRunner.parse_action_file` (src/src/action_runner.py:181-301) -/

/-- The field names recognised by the line-oriented fallback when deciding
whether a line ends a multi-line body (`starts_with_field` in the source). -/
def knownFields : List String :=
  ["type", "to", "subject", "body", "from", "cc", "bcc"]

def startsWithKnownField (l : String) : Bool :=
  knownFields.any (fun f => pyStartsWith (pyLower l) (f ++ ":"))

/-- Header-block parsing (the branch of `parse_action_file` taken when a
blank line separates headers from body): each header line containing a
colon sets one of `type`/`to`/`subject`/`body`; the `type` value is
lowercased; unknown keys are ignored. -/
def parseHeaderLines : List String → Dict → Dict
  | [], d => d
  | l :: rest, d =>
    let line := pyStrip l
    if pyContainsChar line ':' then
      let kv := splitColon1 line
      let key := pyLower (pyStrip kv.1)
      let value := pyStrip kv.2
      let d' :=
        if key = "type" then dset d "type" (pyLower value)
        else if key = "to" then dset d "to" value
        else if key = "subject" then dset d "subject" value
        else if key = "body" then dset d "body" value
        else d
      parseHeaderLines rest d'
    else parseHeaderLines rest d

/-- Body absorption in the line-oriented fallback: starting after a
`body:` line, stripped lines are absorbed (empty lines included) until a
line that starts with a known field name followed by a colon.  Returns the
absorbed (stripped) lines and the remaining lines. -/
def absorbBody : List String → List String × List String
  | [] => ([], [])
  | l :: rest =>
    let nl := pyStrip l
    if nl ≠ "" then
      if startsWithKnownField nl then ([], l :: rest)
      else
        let ar := absorbBody rest
        (nl :: ar.1, ar.2)
    else
      let ar := absorbBody rest
      (nl :: ar.1, ar.2)

theorem absorbBody_rem_length_le (ls : List String) :
    (absorbBody ls).2.length ≤ ls.length := by
  induction ls with
  | nil => simp [absorbBody]
  | cons l rest ih =>
    simp only [absorbBody]
    split_ifs with h1 h2
    · simp
    · exact Nat.le_succ_of_le ih
    · exact Nat.le_succ_of_le ih

/-- Line-oriented fallback of `parse_action_file` (no blank separator
line): each `key: value` line sets a field, and a `body:` line absorbs all
subsequent non-field lines into a multi-line body.  The loop consumes at
least one line per iteration (`absorbBody` never lengthens the remainder),
so fuel of one more than the number of lines never runs out; fuel keeps
the recursion structural. -/
def lineLoop : Nat → List String → Dict → Dict
  | 0, _, d => d
  | _ + 1, [], d => d
  | fuel + 1, l :: rest, d =>
    let line := pyStrip l
    if line ≠ "" ∧ pyContainsChar line ':' then
      let kv := splitColon1 line
      let key := pyLower (pyStrip kv.1)
      let value := pyStrip kv.2
      if key = "type" then lineLoop fuel rest (dset d "type" (pyLower value))
      else if key = "to" then lineLoop fuel rest (dset d "to" value)
      else if key = "subject" then
        lineLoop fuel rest (dset d "subject" value)
      else if key = "body" then
        let ar := absorbBody rest
        lineLoop fuel ar.2
          (dset d "body" (pyStrip (String.intercalate "\n" (value :: ar.1))))
      else lineLoop fuel rest d
    else lineLoop fuel rest d

/-- Structured-fallback tier of `parse_action_file`: split the stripped
content into lines; when a blank line exists, parse the lines before it as
headers and the lines after it as the body (unless a `body:` header was
given); otherwise run the line-oriented loop. -/
def fallbackParse (content : String) : PyVal :=
  let lines := pySplitOn (pyStrip content) "\n"
  match lines.findIdx? (fun l => decide (pyStrip l = "")) with
  | some idx =>
    let headerLines := lines.take idx
    let d := parseHeaderLines headerLines []
    let bodyLines := lines.drop (idx + 1)
    let bodyContent := pyStrip (String.intercalate "\n" bodyLines)
    let d' := if dcontains d "body" then d else dset d "body" bodyContent
    .pdict d'
  | none => .pdict (lineLoop (lines.length + 1) lines [])

/-- `ActionRunner.parse_action_file`: `none` models the file-read exception
path (the whole body is wrapped in a `try` returning `None`); otherwise the
YAML tier is tried first and its result returned when truthy, falling back
to the structured/line-oriented tiers. -/
def parse_action_file (content? : Option String) : Option PyVal :=
  match content? with
  | none => none
  | some content =>
    match yamlSafeLoad content with
    | .ok v => if v.truthy then some v else some (fallbackParse content)
    | .error _ => some (fallbackParse content)

/-! ## `ActionRunner.execute_action` and the type-specific executors
(src/src/action_runner.py:303-486)

External side effects (the Gmail send, the LinkedIn poster, the tool
dispatch of the `approval_request` branch) are out-of-scope collaborators;
their outcomes are oracle booleans.  Log calls that the claims refer to are
recorded as `RunnerEvent`s. -/

inductive RunnerEvent where
  | warnUnknownActionType (t : String)
  | errMissingEmailFields
  | errMissingLinkedInContent
  | infoSendingEmail
  | errParseFailed
  | infoMovedToDone (name : String)
  | errMoveFailed (name : String)
deriving DecidableEq

/-- Exceptions that can escape `execute_action`: calling `.get` on a
non-dict parse result raises `AttributeError` in Python. -/
inductive PyExn where
  | attributeError
deriving DecidableEq

/-- Oracle outcomes for the external collaborators invoked by the
executors. -/
structure ExecOutcome where
  emailSendOk : Bool
  linkedinOk : Bool
  toolActionOk : Bool

/-- Python truthiness of an optional string field (`not to` is true for
both a missing key and an empty value). -/
def pyFalsyStrOpt : Option String → Bool
  | none => true
  | some s => decide (s = "")

/-- `ActionRunner.execute_email_send_action`: fails with an error log when
`to` or `subject` is missing or empty, otherwise the outcome is that of the
Gmail send. -/
def execute_email_send_action (oracle : ExecOutcome) (d : Dict) :
    Bool × List RunnerEvent :=
  if pyFalsyStrOpt (dlookup d "to") || pyFalsyStrOpt (dlookup d "subject") then
    (false, [.errMissingEmailFields])
  else
    (oracle.emailSendOk, [.infoSendingEmail])

/-- `ActionRunner.execute_linkedin_post_action`: content is taken from
`content` falling back to `body`; missing content fails with an error
log. -/
def execute_linkedin_post_action (oracle : ExecOutcome) (d : Dict) :
    Bool × List RunnerEvent :=
  let c0 := (dlookup d "content").getD ""
  let c := if c0 = "" then (dlookup d "body").getD "" else c0
  if c = "" then (false, [.errMissingLinkedInContent])
  else (oracle.linkedinOk, [])

/-- `ActionRunner.execute_action`: dispatch on the lowercased `type` field
(missing `type` defaults to the empty string); unrecognised types log a
warning and return `False`.  On a non-dict value, `action_data.get`
raises `AttributeError`.  The `approval_request` branch re-reads the file
and dispatches to an external tool; it catches its own exceptions and its
outcome is modelled by the `toolActionOk` oracle. -/
def execute_action (oracle : ExecOutcome) (a : PyVal) :
    Except PyExn (Bool × List RunnerEvent) :=
  match a with
  | .pdict d =>
    let t := pyLower ((dlookup d "type").getD "")
    if t = "email_send" then .ok (execute_email_send_action oracle d)
    else if t = "linkedin_post" then .ok (execute_linkedin_post_action oracle d)
    else if t = "approval_request" then .ok (oracle.toolActionOk, [])
    else .ok (false, [.warnUnknownActionType t])
  | .pstr _ => .error .attributeError
  | .pnone => .error .attributeError

/-! ## File relocation (src/src/utils/helpers.py:31-69 and
src/src/utils/file_operations.py:49-72)

A directory is an association list from file name to file content. -/

abbrev Dir := Dict

structure MoveResult where
  ok : Bool
  src : Dir
  dst : Dir
deriving DecidableEq

/-- `move_file` from `src/src/utils/helpers.py`: fails when the source is
missing or when the destination exists and `overwrite` is false; with
`overwrite` the existing destination is deleted first; otherwise the file
is relocated. -/
def move_file (srcDir dstDir : Dir) (srcName dstName : String)
    (overwrite : Bool) : MoveResult :=
  match dlookup srcDir srcName with
  | none => ⟨false, srcDir, dstDir⟩
  | some content =>
    if dcontains dstDir dstName ∧ ¬ overwrite then ⟨false, srcDir, dstDir⟩
    else ⟨true, derase srcDir srcName,
      dset (derase dstDir dstName) dstName content⟩

structure TsMoveResult where
  destName : String
  src : Dir
  dst : Dir
deriving DecidableEq

/-- `move_file_with_timestamp` from `src/src/utils/file_operations.py`:
when the destination name exists, the name is suffixed with the current
timestamp; the file is then renamed into the destination directory
(`Path.rename`, which silently replaces an existing target).  `none`
models the `FileNotFoundError` raised by `rename` on a missing source. -/
def move_file_with_timestamp (srcDir dstDir : Dir) (srcName : String)
    (timestamp : String) : Option TsMoveResult :=
  match dlookup srcDir srcName with
  | none => none
  | some content =>
    let ss := pathStemSuffix srcName
    let destName :=
      if dcontains dstDir srcName then ss.1 ++ "_" ++ timestamp ++ ss.2
      else srcName
    some ⟨destName, derase srcDir srcName,
      dset (derase dstDir destName) destName content⟩

/-! ## `ActionRunner.process_approved_file` and the executor pass
(src/src/action_runner.py:605-647) -/

/-- The two directories the executor touches. -/
structure RunnerFS where
  approved : Dir
  done : Dir
deriving DecidableEq

/-- `ActionRunner.process_approved_file`: parse the file; on a falsy parse
result log an error and return (the file is not relocated); otherwise
execute the action and move the file to `Done` with `move_file` (default
`overwrite=False`), logging whether the move succeeded.  An exception
escaping `execute_action` propagates to the caller. -/
def process_approved_file (oracle : ExecOutcome) (fs : RunnerFS)
    (name : String) : Except PyExn (RunnerFS × List RunnerEvent) :=
  match parse_action_file (dlookup fs.approved name) with
  | none => .ok (fs, [.errParseFailed])
  | some v =>
    if ¬ v.truthy then .ok (fs, [.errParseFailed])
    else
      match execute_action oracle v with
      | .error e => .error e
      | .ok (_, evs) =>
        let mv := move_file fs.approved fs.done name name false
        if mv.ok then .ok (⟨mv.src, mv.dst⟩, evs ++ [.infoMovedToDone name])
        else .ok (⟨mv.src, mv.dst⟩, evs ++ [.errMoveFailed name])

/-! ## Deduplication gate (src/main.py:69-101) -/

inductive HandlerOutcome where
  | ignored
  | skippedDuplicate
  | triggeredPlanGeneration
deriving DecidableEq

/-- `GmailReasoningLoop.handle_file_system_event`: on a `created` event
whose path contains the Needs-Action directory string, derive the file's
stem and search the Plans directory (`glob("*stem*")`, i.e. substring
match on plan file names); skip when any plan matches, otherwise trigger
plan generation.  All other events are ignored. -/
def handle_file_system_event (needsActionDirStr : String)
    (plansDirFiles : List String) (eventType pathInfo : String) :
    HandlerOutcome :=
  if eventType = "created" ∧ containsSubstr pathInfo needsActionDirStr then
    let fileStem := pathStem pathInfo
    let existingPlans :=
      plansDirFiles.filter (fun nm => containsSubstr nm fileStem)
    if ¬ existingPlans.isEmpty then .skippedDuplicate
    else .triggeredPlanGeneration
  else .ignored

/-! ## Stability detector (src/src/utils/file_operations.py:10-46)

Time is modelled in ticks; `sizeAt t` is the file's size (in bytes) an
`os.stat` call issued at tick `t` would observe, `none` when the file no
longer exists at that tick.  Sleeping advances the clock; a `stat` call
itself takes no time.  The Python loop has no bound, so the model carries
fuel; `fuelOut` never occurs for executions that terminate. -/

inductive StabilityOutcome where
  | ret (b : Bool)
  | exn
  | fuelOut
deriving DecidableEq

/-- The `while True` loop of `wait_for_file_stability`, entered at tick `t`
with last-seen size `initial`: read the current size (a vanished file makes
`stat` raise, modelled as `exn`); on an unchanged size sleep
`confirm` and re-check, returning true when still unchanged and otherwise
continuing from the new size without a poll sleep; on a changed size
continue from the new size after a poll sleep. -/
def stabilityLoop (sizeAt : Nat → Option Nat) (poll confirm : Nat) :
    Nat → Nat → Nat → StabilityOutcome
  | 0, _, _ => .fuelOut
  | fuel + 1, t, initial =>
    match sizeAt t with
    | none => .exn
    | some current =>
      if current = initial then
        match sizeAt (t + confirm) with
        | none => .exn
        | some finalSize =>
          if finalSize = initial then .ret true
          else stabilityLoop sizeAt poll confirm fuel (t + confirm) finalSize
      else
        stabilityLoop sizeAt poll confirm fuel (t + poll) current

/-- `wait_for_file_stability`: returns false when the file does not exist
at the initial check; otherwise reads the initial size at tick 0, sleeps
the polling interval and enters the loop. -/
def wait_for_file_stability (sizeAt : Nat → Option Nat)
    (poll confirm fuel : Nat) : StabilityOutcome :=
  match sizeAt 0 with
  | none => .ret false
  | some initial => stabilityLoop sizeAt poll confirm fuel poll initial

/-! ## Accounting skill transport strategy
(src/src/skills/accounting_odoo_skill.py:408-793)

The MCP channel and the direct XML-RPC channel are external collaborators;
a `ConnectEnv` oracle fixes how one connection attempt would behave (how
long the MCP connect takes, what it returns or raises, whether the direct
client authenticates) and which credentials the environment variables
supply.  Every channel use is recorded in a `Channel` trace. -/

inductive Channel where
  | mcp
  | direct
deriving DecidableEq

structure OdooCreds where
  url : String
  db : String
  username : String
  password : String
deriving DecidableEq

/-- Result of letting `OdooMCPClient.connect()` run to completion:
it returns a boolean or raises. -/
inductive MCPResult where
  | returns (b : Bool)
  | raised
deriving DecidableEq

structure ConnectEnv where
  mcpDuration : Nat
  mcpResult : MCPResult
  directOk : Bool
  creds : OdooCreds
deriving DecidableEq

/-- The `timeout=5.0` bound passed to `asyncio.wait_for` in
`AccountingOdooSkill.connect`. -/
def mcpConnectTimeoutSecs : Nat := 5

/-- The mutable fields of `AccountingOdooSkill` (and of its embedded MCP
client) that the transport strategy reads and writes. -/
structure SkillState where
  connected : Bool
  useFallback : Bool
  directCreds : Option OdooCreds
  directAuth : Bool
  mcpConnected : Bool
deriving DecidableEq

def initialSkillState : SkillState :=
  ⟨false, false, none, false, false⟩

structure SkillStep where
  ret : Bool
  st : SkillState
  calls : List Channel
deriving DecidableEq

/-- `AccountingOdooSkill.connect`: attempt the MCP channel under
`asyncio.wait_for(..., timeout=5.0)`; on success mark connected.  On a
timeout, a `False` return or an exception, build a direct XML-RPC client
from the environment credentials and connect it; on success set the sticky
`_use_fallback` flag, otherwise report failure. -/
def skillConnect (env : ConnectEnv) (st : SkillState) : SkillStep :=
  let mcpSuccess :=
    env.mcpDuration ≤ mcpConnectTimeoutSecs ∧ env.mcpResult = .returns true
  if mcpSuccess then
    ⟨true, { st with connected := true, mcpConnected := true }, [.mcp]⟩
  else if env.directOk then
    ⟨true,
      { st with
        connected := true
        useFallback := true
        directCreds := some env.creds
        directAuth := true
        mcpConnected := false },
      [.mcp, .direct]⟩
  else
    ⟨false,
      { st with
        connected := false
        directCreds := some env.creds
        directAuth := false
        mcpConnected := false },
      [.mcp, .direct]⟩

/-- Connect-if-needed prologue shared by the skill operations (`if not
self._connected: await self.connect()`). -/
def ensureConnected (env : ConnectEnv) (st : SkillState) : SkillStep :=
  if ¬ st.connected then skillConnect env st
  else ⟨true, st, []⟩

structure SkillOpResult where
  success : Bool
  st : SkillState
  calls : List Channel
deriving DecidableEq

/-- `AccountingOdooSkill.create_invoice` with the default
`require_approval=False`: after the connect prologue, use the direct
XML-RPC channel when the sticky fallback flag is set and a direct client
exists, and the MCP channel otherwise (where a disconnected MCP client
raises `ConnectionError`, caught and returned as a failure). -/
def skillCreateInvoice (env : ConnectEnv) (callOk : Bool)
    (st : SkillState) : SkillOpResult :=
  let pre := ensureConnected env st
  if ¬ pre.ret then ⟨false, pre.st, pre.calls⟩
  else if pre.st.useFallback ∧ pre.st.directCreds.isSome then
    ⟨pre.st.directAuth ∧ callOk, pre.st, pre.calls ++ [.direct]⟩
  else
    ⟨pre.st.mcpConnected ∧ callOk, pre.st, pre.calls ++ [.mcp]⟩

/-- `AccountingOdooSkill.get_total_revenue`: after the connect prologue it
calls `self.mcp_client.get_total_revenue()` unconditionally — the sticky
fallback flag is never consulted — and a disconnected MCP client raises
`ConnectionError`, caught and returned as a failure result. -/
def skillGetTotalRevenue (env : ConnectEnv) (callOk : Bool)
    (st : SkillState) : SkillOpResult :=
  let pre := ensureConnected env st
  if ¬ pre.ret then ⟨false, pre.st, pre.calls⟩
  else ⟨pre.st.mcpConnected ∧ callOk, pre.st, pre.calls ++ [.mcp]⟩

/-! ## Audit log (src/src/skills/accounting_odoo_skill.py:424-439, 874-876) -/

structure AuditEntry where
  timestamp : String
  action : String
  success : Bool
  result_summary : String
deriving DecidableEq

/-- `AccountingOdooSkill._log_audit`: append an entry whose summary is the
result truncated to 500 characters; when the log then holds more than 1000
entries keep only the last 500. -/
def log_audit (log : List AuditEntry) (ts action result : String)
    (success : Bool) : List AuditEntry :=
  let log' := log ++ [⟨ts, action, success, pyStrTake result 500⟩]
  if log'.length > 1000 then log'.drop (log'.length - 500) else log'

/-- `AccountingOdooSkill.get_audit_log`: Python `log[-limit:]`, which is
the whole list when `limit = 0`. -/
def get_audit_log (log : List AuditEntry) (limit : Nat) : List AuditEntry :=
  if limit = 0 then log else log.drop (log.length - limit)

/-! ## Argument synonym normalization
(src/src/action_runner.py:511-536, `ActionRunner._execute_odoo_action`) -/

/-- The `arg_mapping` dictionary, in its Python insertion order. -/
def argMapping : List (String × String) :=
  [("customer", "client_name"), ("partner_name", "client_name"),
   ("client", "client_name"), ("company", "client_name"),
   ("cost", "amount"), ("price", "amount"),
   ("total", "amount"), ("value", "amount"),
   ("desc", "description"), ("details", "description"),
   ("note", "description"), ("memo", "description")]

/-- One step of the renaming loop:
`if old_key in mapped and new_key not in mapped:
mapped[new_key] = mapped.pop(old_key)` — the popped key is removed and the
canonical key appended at the end. -/
def mapStep (m : Dict) (p : String × String) : Dict :=
  if dcontains m p.1 = true ∧ dcontains m p.2 = false then
    derase m p.1 ++ [(p.2, (dlookup m p.1).getD "")]
  else m

/-- The full renaming pass over `arg_mapping` applied to the parsed tool
arguments. -/
def applyArgMapping (args : Dict) : Dict :=
  argMapping.foldl mapStep args

/-! ## Basic dictionary lemmas -/

theorem dlookup_append (m m' : Dict) (k : String) :
    dlookup (m ++ m') k =
      match dlookup m k with
      | some v => some v
      | none => dlookup m' k := by
  induction m with
  | nil => simp [dlookup]
  | cons p rest ih =>
    obtain ⟨k', v⟩ := p
    by_cases h : k' = k
    · simp [dlookup, h]
    · simpa [dlookup, h] using ih

theorem dlookup_derase (m : Dict) (j k : String) :
    dlookup (derase m j) k = if j = k then none else dlookup m k := by
  induction m with
  | nil => simp [derase, dlookup]
  | cons p rest ih =>
    obtain ⟨k', v⟩ := p
    by_cases hj : k' = j
    · subst hj
      by_cases hk : k' = k
      · subst hk
        simpa [derase, dlookup] using ih
      · simpa [derase, dlookup, hk] using ih
    · by_cases hk : k' = k
      · subst hk
        have : ¬ j = k' := fun h => hj h.symm
        simp [derase, dlookup, hj, this]
      · simpa [derase, dlookup, hj, hk] using ih

/-! ## Claim C10 — the parser can return a bare YAML scalar -/

/-- C10: for plain free text (a sentence with no colon), the YAML tier of
`parse_action_file` returns a truthy bare string, which the parser passes
through unchanged — the parser's public result is a string, not a mapping
with type/parameter fields. -/
theorem parse_action_file_returns_bare_scalar :
    parse_action_file (some "Please review the quarterly report") =
      some (.pstr "Please review the quarterly report") ∧
    (PyVal.pstr "Please review the quarterly report").isDict = false ∧
    (PyVal.pstr "Please review the quarterly report").truthy = true := by
  constructor
  · rfl
  · exact ⟨rfl, by decide⟩

/-! ## Claim C3 — the deduplication gate keys on the FULL filename stem -/

/-- C3 counterexample: `Task_A.md` and `Task_A_copy.md` derive different
dedup keys (`Task_A` vs `Task_A_copy`); with a plan artifact for `Task_A`
already present, the event for `Task_A_copy.md` is NOT detected as a
duplicate — a second plan generation is triggered. -/
theorem dedup_copy_suffix_not_skipped :
    pathStem "Needs_Action/Task_A.md" = "Task_A" ∧
    pathStem "Needs_Action/Task_A_copy.md" = "Task_A_copy" ∧
    handle_file_system_event "Needs_Action"
      ["PLAN_20250101_120000_Task_A.md"] "created"
      "Needs_Action/Task_A_copy.md" = .triggeredPlanGeneration := by
  refine ⟨rfl, rfl, ?_⟩
  rfl

/-- C3 amended: the dedup key is the item's full filename stem.  On a
`created` event under Needs-Action, the item is skipped as a duplicate
exactly when some existing plan file name contains the full stem as a
substring (so `Task_A_copy.md` is not skipped by a `Task_A` plan, while a
resubmitted `Task_A.md` is), and otherwise plan generation is
triggered. -/
theorem dedup_gate_full_stem (needsDir : String) (plans : List String)
    (evType p : String) (hev : evType = "created")
    (hp : containsSubstr p needsDir = true) :
    (handle_file_system_event needsDir plans evType p = .skippedDuplicate ↔
      ∃ nm ∈ plans, containsSubstr nm (pathStem p) = true) ∧
    (handle_file_system_event needsDir plans evType p =
        .triggeredPlanGeneration ↔
      ∀ nm ∈ plans, containsSubstr nm (pathStem p) = false) := by
  subst hev
  unfold handle_file_system_event
  rw [if_pos ⟨rfl, hp⟩]
  simp only []
  by_cases hfil :
      (plans.filter (fun nm => containsSubstr nm (pathStem p))).isEmpty
  · rw [if_neg (by simp [hfil])]
    have hnil := (List.isEmpty_iff).mp hfil
    constructor
    · constructor
      · intro h; cases h
      · rintro ⟨nm, hmem, hsub⟩
        have := (List.filter_eq_nil_iff).mp hnil nm hmem
        simp [hsub] at this
    · constructor
      · intro _ nm hmem
        have := (List.filter_eq_nil_iff).mp hnil nm hmem
        simpa using this
      · intro _; rfl
  · rw [if_pos (by simpa using hfil)]
    constructor
    · constructor
      · intro _
        have hne : plans.filter (fun nm => containsSubstr nm (pathStem p)) ≠ [] := by
          intro hnil
          exact hfil (by simp [hnil])
        obtain ⟨nm, hmem⟩ := List.exists_mem_of_ne_nil _ hne
        exact ⟨nm, (List.mem_filter.mp hmem).1, (List.mem_filter.mp hmem).2⟩
      · intro _; rfl
    · constructor
      · intro h; cases h
      · intro hall
        exfalso
        apply hfil
        simp only [List.isEmpty_iff]
        rw [List.filter_eq_nil_iff]
        intro nm hmem
        simp [hall nm hmem]

/-- C3 witness: at the concrete scenario the resubmitted `Task_A.md` IS
skipped as a duplicate. -/
theorem dedup_gate_full_stem_witness :
    handle_file_system_event "Needs_Action"
      ["PLAN_20250101_120000_Task_A.md"] "created"
      "Needs_Action/Task_A.md" = .skippedDuplicate :=
  (dedup_gate_full_stem "Needs_Action" ["PLAN_20250101_120000_Task_A.md"]
      "created" "Needs_Action/Task_A.md" rfl (by decide)).1.mpr
    ⟨"PLAN_20250101_120000_Task_A.md", by decide, by decide⟩

theorem dlookup_dset (m : Dict) (k k' v : String) :
    dlookup (dset m k v) k' = if k = k' then some v else dlookup m k' := by
  induction m with
  | nil =>
    by_cases h : k = k'
    · simp [dset, dlookup, h]
    · simp [dset, dlookup, h]
  | cons p rest ih =>
    obtain ⟨j, w⟩ := p
    by_cases hj : j = k
    · subst hj
      by_cases hk : j = k'
      · simp [dset, dlookup, hk]
      · simp [dset, dlookup, hk]
    · by_cases hk : j = k'
      · subst hk
        have : ¬ k = j := fun h => hj h.symm
        simp [dset, dlookup, hj, this]
      · simpa [dset, dlookup, hj, hk] using ih

/-! ## Claim C1 — a parse failure does NOT relocate the file to Done -/

/-- C1 counterexample: `"[unclosed"` fails both parser tiers (the YAML tier
raises, the fallback finds no `key: value` line and yields the falsy empty
dict), and `process_approved_file` then returns early: the file is NOT
relocated to Done — it stays in Approved with an unchanged Done directory,
so the next executor pass picks it up again. -/
theorem parse_failure_not_relocated :
    process_approved_file ⟨true, true, true⟩
        ⟨[("bad.md", "[unclosed")], []⟩ "bad.md" =
      .ok (⟨[("bad.md", "[unclosed")], []⟩, [.errParseFailed]) ∧
    dlookup [("bad.md", "[unclosed")] "bad.md" = some "[unclosed" := by
  exact ⟨rfl, rfl⟩

/-- C1 amended: on a falsy parse result `process_approved_file` only logs
the parse error and returns: both directories are left unchanged, so the
unparseable file remains in Approved and is reprocessed on every
subsequent executor pass (it is never relocated to Done). -/
theorem parse_failure_leaves_file_in_approved (oracle : ExecOutcome)
    (fs : RunnerFS) (name : String)
    (h : parse_action_file (dlookup fs.approved name) = none ∨
      ∃ v, parse_action_file (dlookup fs.approved name) = some v ∧
        v.truthy = false) :
    process_approved_file oracle fs name = .ok (fs, [.errParseFailed]) := by
  unfold process_approved_file
  rcases h with h | ⟨v, hv, ht⟩
  · rw [h]
  · rw [hv]
    simp [ht]

/-- C1 witness. -/
theorem parse_failure_leaves_file_in_approved_witness :
    process_approved_file ⟨true, true, true⟩ ⟨[("x.md", "[oops")], []⟩
      "x.md" = .ok (⟨[("x.md", "[oops")], []⟩, [.errParseFailed]) :=
  parse_failure_leaves_file_in_approved ⟨true, true, true⟩
    ⟨[("x.md", "[oops")], []⟩ "x.md" (Or.inr ⟨.pdict [], rfl, rfl⟩)

/-! ## Claim C5 — mandatory parameters are NOT checked at parse time -/

/-- C5 counterexample: an action file with `type: email_send` but no `to`
parses successfully into a truthy Action dict — parsing does not fail with
a structured error despite the missing type-mandatory recipient. -/
theorem missing_mandatory_param_still_parses :
    parse_action_file (some "type: email_send\nsubject: Hi\n\nHello") =
      some (.pdict [("type", "email_send"), ("subject", "Hi"),
        ("body", "Hello")]) ∧
    dlookup [("type", "email_send"), ("subject", "Hi"), ("body", "Hello")]
      "to" = none ∧
    (PyVal.pdict [("type", "email_send"), ("subject", "Hi"),
      ("body", "Hello")]).truthy = true := by
  exact ⟨rfl, rfl, rfl⟩

/-- C5 amended: the parser does not validate type-mandatory parameters; an
email action missing (or with an empty) `to` or `subject` parses to an
Action and the check happens at execution, which logs the missing field
and returns the failure flag `False` — no exception is raised. -/
theorem missing_mandatory_param_checked_at_execution (oracle : ExecOutcome)
    (d : Dict)
    (htype : pyLower ((dlookup d "type").getD "") = "email_send")
    (h : pyFalsyStrOpt (dlookup d "to") = true ∨
      pyFalsyStrOpt (dlookup d "subject") = true) :
    execute_action oracle (.pdict d) =
      .ok (false, [.errMissingEmailFields]) := by
  unfold execute_action execute_email_send_action
  rcases h with h | h <;> simp [htype, h]

/-- C5 witness. -/
theorem missing_mandatory_param_checked_at_execution_witness :
    execute_action ⟨true, true, true⟩
        (.pdict [("type", "email_send"), ("subject", "Hi"),
          ("body", "Hello")]) =
      .ok (false, [.errMissingEmailFields]) :=
  missing_mandatory_param_checked_at_execution ⟨true, true, true⟩
    [("type", "email_send"), ("subject", "Hi"), ("body", "Hello")]
    rfl (Or.inl rfl)

/-! ## Claim C6 — unknown action types are rejected, file still relocated -/

/-- C6: an action whose lowercased `type` is none of the recognised action
types is rejected with a structured unknown-action-type failure — the
executor returns `False` together with a warning naming the offending type
and raises no exception — and `process_approved_file` still relocates the
originating file to Done (given no collision there), recording the
warning. -/
theorem unknown_action_type_rejected_and_relocated (oracle : ExecOutcome)
    (fs : RunnerFS) (name content : String) (d : Dict)
    (hfile : dlookup fs.approved name = some content)
    (hparse : parse_action_file (some content) = some (.pdict d))
    (htruthy : (PyVal.pdict d).truthy = true)
    (ht : pyLower ((dlookup d "type").getD "") ∉
      (["email_send", "linkedin_post", "approval_request"] : List String))
    (hdone : dcontains fs.done name = false) :
    execute_action oracle (.pdict d) =
      .ok (false,
        [.warnUnknownActionType (pyLower ((dlookup d "type").getD ""))]) ∧
    process_approved_file oracle fs name =
      .ok (⟨derase fs.approved name,
        dset (derase fs.done name) name content⟩,
        [.warnUnknownActionType (pyLower ((dlookup d "type").getD "")),
          .infoMovedToDone name]) := by
  simp only [List.mem_cons, List.not_mem_nil, or_false, not_or] at ht
  obtain ⟨ht1, ht2, ht3⟩ := ht
  have hexec : execute_action oracle (.pdict d) =
      .ok (false,
        [.warnUnknownActionType (pyLower ((dlookup d "type").getD ""))]) := by
    unfold execute_action
    simp [ht1, ht2, ht3]
  have hmv : move_file fs.approved fs.done name name false =
      ⟨true, derase fs.approved name,
        dset (derase fs.done name) name content⟩ := by
    unfold move_file
    rw [hfile]
    simp [hdone]
  refine ⟨hexec, ?_⟩
  unfold process_approved_file
  rw [hfile, hparse]
  simp only [htruthy, hexec, hmv]
  simp

/-- C6 witness: a `type: bogus_type` file is rejected and ends in Done. -/
theorem unknown_action_type_rejected_and_relocated_witness :
    process_approved_file ⟨true, true, true⟩
        ⟨[("t.md", "type: bogus_type\n\ndo something")], []⟩ "t.md" =
      .ok (⟨[], [("t.md", "type: bogus_type\n\ndo something")]⟩,
        [.warnUnknownActionType "bogus_type", .infoMovedToDone "t.md"]) :=
  (unknown_action_type_rejected_and_relocated ⟨true, true, true⟩
    ⟨[("t.md", "type: bogus_type\n\ndo something")], []⟩ "t.md"
    "type: bogus_type\n\ndo something"
    [("type", "bogus_type"), ("body", "do something")]
    rfl rfl rfl (by decide) rfl).2

/-! ## Claim C7 — collision handling of the relocation operations -/

/-- C7 counterexample: the relocation used by the executor pipeline
(`move_file` with its default `overwrite=False`) does NOT resolve a
destination-name collision by timestamp-suffixing: it refuses the move and
leaves the file where it was.  Concretely, processing an approved file
whose name already exists in Done leaves both directories unchanged and
logs a move failure. -/
theorem pipeline_collision_not_timestamp_suffixed :
    move_file [("a.md", "x")] [("a.md", "y")] "a.md" "a.md" false =
      ⟨false, [("a.md", "x")], [("a.md", "y")]⟩ ∧
    process_approved_file ⟨true, true, true⟩
        ⟨[("t.md", "type: bogus_type\n\nx")], [("t.md", "old")]⟩ "t.md" =
      .ok (⟨[("t.md", "type: bogus_type\n\nx")], [("t.md", "old")]⟩,
        [.warnUnknownActionType "bogus_type", .errMoveFailed "t.md"]) := by
  exact ⟨rfl, rfl⟩

/-- C7 amended: collision handling differs per operation.  The watcher's
relocation `move_file_with_timestamp` resolves a collision by
timestamp-suffixing the destination name (leaving the colliding file
intact when the suffixed name is fresh); the executor's relocation
`move_file` with `overwrite=False` refuses the move and leaves the source
in place.  Neither silently overwrites the colliding destination unless
overwrite is explicitly requested, and the source file is never lost: it
either reaches a destination or remains where it was. -/
theorem relocation_collision_handling (srcDir dstDir : Dir)
    (srcName dstName ts content : String)
    (hsrc : dlookup srcDir srcName = some content) :
    (dcontains dstDir dstName = true →
      move_file srcDir dstDir srcName dstName false =
        ⟨false, srcDir, dstDir⟩) ∧
    (∀ ow : Bool,
      ((move_file srcDir dstDir srcName dstName ow).ok = true →
        dlookup (move_file srcDir dstDir srcName dstName ow).dst dstName =
          some content) ∧
      ((move_file srcDir dstDir srcName dstName ow).ok = false →
        move_file srcDir dstDir srcName dstName ow =
          ⟨false, srcDir, dstDir⟩)) ∧
    (dcontains dstDir srcName = true →
      dcontains dstDir
        ((pathStemSuffix srcName).1 ++ "_" ++ ts ++
          (pathStemSuffix srcName).2) = false →
      move_file_with_timestamp srcDir dstDir srcName ts =
        some ⟨(pathStemSuffix srcName).1 ++ "_" ++ ts ++
            (pathStemSuffix srcName).2,
          derase srcDir srcName,
          dset (derase dstDir
              ((pathStemSuffix srcName).1 ++ "_" ++ ts ++
                (pathStemSuffix srcName).2))
            ((pathStemSuffix srcName).1 ++ "_" ++ ts ++
              (pathStemSuffix srcName).2) content⟩ ∧
      dlookup
        (dset (derase dstDir
            ((pathStemSuffix srcName).1 ++ "_" ++ ts ++
              (pathStemSuffix srcName).2))
          ((pathStemSuffix srcName).1 ++ "_" ++ ts ++
            (pathStemSuffix srcName).2) content) srcName =
        dlookup dstDir srcName) := by
  have hspec : ∀ ow : Bool, move_file srcDir dstDir srcName dstName ow =
      if dcontains dstDir dstName = true ∧ ¬ ow = true then
        ⟨false, srcDir, dstDir⟩
      else ⟨true, derase srcDir srcName,
        dset (derase dstDir dstName) dstName content⟩ := by
    intro ow
    unfold move_file
    rw [hsrc]
  have htspec : move_file_with_timestamp srcDir dstDir srcName ts =
      (if dcontains dstDir srcName = true then
        some ⟨(pathStemSuffix srcName).1 ++ "_" ++ ts ++
            (pathStemSuffix srcName).2,
          derase srcDir srcName,
          dset (derase dstDir
              ((pathStemSuffix srcName).1 ++ "_" ++ ts ++
                (pathStemSuffix srcName).2))
            ((pathStemSuffix srcName).1 ++ "_" ++ ts ++
              (pathStemSuffix srcName).2) content⟩
      else
        some ⟨srcName, derase srcDir srcName,
          dset (derase dstDir srcName) srcName content⟩) := by
    unfold move_file_with_timestamp
    rw [hsrc]
    by_cases h : dcontains dstDir srcName = true
    · simp only [h, if_true]
    · simp only [h, if_false]
      simp at h
      simp [h]
  refine ⟨?_, ?_, ?_⟩
  · intro hcol
    rw [hspec false, if_pos ⟨hcol, by simp⟩]
  · intro ow
    rw [hspec ow]
    by_cases hcol : dcontains dstDir dstName = true ∧ ¬ ow = true
    · rw [if_pos hcol]
      constructor
      · intro h
        cases h
      · intro _
        rfl
    · rw [if_neg hcol]
      constructor
      · intro _
        simp [dlookup_dset]
      · intro h
        cases h
  · intro hcol hfresh
    have hne : ((pathStemSuffix srcName).1 ++ "_" ++ ts ++
        (pathStemSuffix srcName).2) ≠ srcName := by
      intro h
      rw [h] at hfresh
      rw [hcol] at hfresh
      cases hfresh
    refine ⟨?_, ?_⟩
    · rw [htspec, if_pos hcol]
    · rw [dlookup_dset]
      rw [if_neg hne]
      rw [dlookup_derase]
      rw [if_neg hne]

/-- C7 witness. -/
theorem relocation_collision_handling_witness :
    move_file [("a.md", "x")] [("a.md", "y")] "a.md" "a.md" false =
      ⟨false, [("a.md", "x")], [("a.md", "y")]⟩ ∧
    move_file_with_timestamp [("a.md", "x")] [("a.md", "y")] "a.md"
        "20260101_000000" =
      some ⟨"a_20260101_000000.md", [],
        [("a.md", "y"), ("a_20260101_000000.md", "x")]⟩ := by
  have h := relocation_collision_handling [("a.md", "x")] [("a.md", "y")]
    "a.md" "a.md" "20260101_000000" "x" rfl
  refine ⟨h.1 rfl, ?_⟩
  have h3 := (h.2.2 rfl (by decide)).1
  exact h3

/-! ## Claim C9 — audit log bounding, truncation and accessor -/

/-- C9 counterexample: the read accessor does not return "the most recent
N entries" for every N: Python `log[-0:]` is the whole log, so asking for
the 0 most recent entries of a one-entry log returns that entry, not an
empty list. -/
theorem get_audit_log_zero_returns_all :
    get_audit_log [⟨"2026-01-01T00:00:00", "create_invoice", true, "ok"⟩]
        0 =
      [⟨"2026-01-01T00:00:00", "create_invoice", true, "ok"⟩] ∧
    get_audit_log [⟨"2026-01-01T00:00:00", "create_invoice", true, "ok"⟩]
        0 ≠ ([] : List AuditEntry) := by
  exact ⟨rfl, by decide⟩

/-- C9 amended: every record appends an entry carrying the timestamp,
action type, success flag and the result summary truncated to at most 500
characters; once the appended log exceeds 1000 entries only the most
recent 500 (half the cap) are kept, so the log never exceeds 1000 entries
and what is kept is always a suffix (the most recent entries) ending in
the new entry; the accessor returns the most recent N entries for every
N ≥ 1 (for N = 0 it returns the whole log). -/
theorem audit_log_bounded (log : List AuditEntry) (ts a r : String)
    (s : Bool) :
    (log_audit log ts a r s).length ≤ 1000 ∧
    (pyStrTake r 500).length ≤ 500 ∧
    (∃ pre, log_audit log ts a r s =
      pre ++ [(⟨ts, a, s, pyStrTake r 500⟩ : AuditEntry)]) ∧
    (∃ k, log_audit log ts a r s =
      (log ++ [(⟨ts, a, s, pyStrTake r 500⟩ : AuditEntry)]).drop k) ∧
    (log.length + 1 > 1000 →
      log_audit log ts a r s =
        (log ++ [(⟨ts, a, s, pyStrTake r 500⟩ : AuditEntry)]).drop (log.length + 1 - 500) ∧
      (log_audit log ts a r s).length = 500) ∧
    (∀ limit : Nat, 1 ≤ limit →
      get_audit_log log limit = log.drop (log.length - limit)) := by
  have hlen : (log ++ [(⟨ts, a, s, pyStrTake r 500⟩ : AuditEntry)]).length =
      log.length + 1 := by simp
  by_cases h : (log ++ [(⟨ts, a, s, pyStrTake r 500⟩ : AuditEntry)]).length >
      1000
  · have heq : log_audit log ts a r s =
        (log ++ [(⟨ts, a, s, pyStrTake r 500⟩ : AuditEntry)]).drop (log.length + 1 - 500) := by
      unfold log_audit
      rw [if_pos h, hlen]
    have hklen : (log_audit log ts a r s).length = 500 := by
      rw [heq, List.length_drop, hlen]
      omega
    have hk : log.length + 1 - 500 ≤ log.length := by omega
    refine ⟨by omega, ?_, ?_, ⟨log.length + 1 - 500, heq⟩, fun _ => ⟨heq, hklen⟩,
      ?_⟩
    · show (r.toList.take 500).length ≤ 500
      rw [List.length_take]
      omega
    · refine ⟨log.drop (log.length + 1 - 500), ?_⟩
      rw [heq, List.drop_append_of_le_length hk]
    · intro limit hl
      unfold get_audit_log
      rw [if_neg (by omega)]
  · have heq : log_audit log ts a r s =
        log ++ [(⟨ts, a, s, pyStrTake r 500⟩ : AuditEntry)] := by
      unfold log_audit
      rw [if_neg h]
    refine ⟨?_, ?_, ⟨log, heq⟩, ⟨0, by rw [heq]; rfl⟩, ?_, ?_⟩
    · rw [heq]; omega
    · show (r.toList.take 500).length ≤ 500
      rw [List.length_take]
      omega
    · intro hgt
      exfalso
      omega
    · intro limit hl
      unfold get_audit_log
      rw [if_neg (by omega)]

/-- C9 witness. -/
theorem audit_log_bounded_witness :
    (log_audit [] "2026-01-01T00:00:00" "create_invoice" "ok" true).length ≤
      1000 ∧
    get_audit_log [⟨"t0", "a0", true, "r0"⟩, ⟨"t1", "a1", false, "r1"⟩] 1 =
      [⟨"t1", "a1", false, "r1"⟩] := by
  have h := audit_log_bounded [] "2026-01-01T00:00:00" "create_invoice"
    "ok" true
  have h2 := audit_log_bounded
    [⟨"t0", "a0", true, "r0"⟩, ⟨"t1", "a1", false, "r1"⟩]
    "t" "a" "r" true
  refine ⟨h.1, ?_⟩
  rw [h2.2.2.2.2.2 1 (by omega)]
  rfl

/-! ## Claim C4 — the stability detector never returns a false positive -/

theorem stabilityLoop_sound (sizeAt : Nat → Option Nat)
    (poll confirm : Nat) :
    ∀ fuel t initial,
      stabilityLoop sizeAt poll confirm fuel t initial = .ret true →
      ∃ u s, sizeAt u = some s ∧ sizeAt (u + confirm) = some s := by
  intro fuel
  induction fuel with
  | zero =>
    intro t initial h
    simp [stabilityLoop] at h
  | succ n ih =>
    intro t initial h
    unfold stabilityLoop at h
    split at h
    · cases h
    · rename_i current hc
      split at h
      · rename_i hcur
        split at h
        · cases h
        · rename_i finalSize hf
          split at h
          · rename_i hfin
            exact ⟨t, current, hc, by rw [hf, hfin, hcur]⟩
          · exact ih (t + confirm) finalSize h
      · exact ih (t + poll) current h

/-- C4: the stability detector is sound.  When
`wait_for_file_stability` returns true, there exist two size checks
separated by exactly the confirmation delay that observed the same size —
while the size is still changing the loop keeps going, so it never returns
a false positive.  When the file does not exist at the initial check it
returns false. -/
theorem wait_for_file_stability_sound (sizeAt : Nat → Option Nat)
    (poll confirm fuel : Nat) :
    (wait_for_file_stability sizeAt poll confirm fuel = .ret true →
      ∃ u s, sizeAt u = some s ∧ sizeAt (u + confirm) = some s) ∧
    (sizeAt 0 = none →
      wait_for_file_stability sizeAt poll confirm fuel = .ret false) := by
  constructor
  · intro h
    unfold wait_for_file_stability at h
    cases h0 : sizeAt 0 with
    | none =>
      rw [h0] at h
      cases h
    | some initial =>
      rw [h0] at h
      exact stabilityLoop_sound sizeAt poll confirm fuel poll initial h
  · intro h0
    unfold wait_for_file_stability
    rw [h0]

/-- C4 witness: a file whose size grows for three ticks and then stays
constant is reported stable, and the two equal checks exist. -/
theorem wait_for_file_stability_sound_witness :
    wait_for_file_stability (fun u => some (min u 3)) 1 2 10 = .ret true ∧
    ∃ u s, (fun u => some (min u 3)) u = some s ∧
      (fun u => some (min u 3)) (u + 2) = some s :=
  ⟨by decide,
    (wait_for_file_stability_sound (fun u => some (min u 3)) 1 2 10).1
      (by decide)⟩

/-! ## Claim C2 — sticky transport fallback is NOT honoured by every
operation -/

/-- C2 counterexample: connect with an MCP channel that times out (takes 6
seconds against the 5-second bound) and a working direct channel sets the
sticky fallback flag, yet the next `get_total_revenue` call still invokes
the MCP channel and never the fallback channel, and fails. -/
theorem sticky_fallback_ignored_by_revenue :
    ((skillConnect ⟨6, .raised, true, ⟨"http://localhost:8069",
      "hackathon_db", "admin", "admin"⟩⟩ initialSkillState).st.useFallback =
      true) ∧
    (skillGetTotalRevenue ⟨6, .raised, true, ⟨"http://localhost:8069",
      "hackathon_db", "admin", "admin"⟩⟩ true
      (skillConnect ⟨6, .raised, true, ⟨"http://localhost:8069",
        "hackathon_db", "admin", "admin"⟩⟩ initialSkillState).st).calls =
      [Channel.mcp] ∧
    (skillGetTotalRevenue ⟨6, .raised, true, ⟨"http://localhost:8069",
      "hackathon_db", "admin", "admin"⟩⟩ true
      (skillConnect ⟨6, .raised, true, ⟨"http://localhost:8069",
        "hackathon_db", "admin", "admin"⟩⟩ initialSkillState).st).success =
      false := by
  exact ⟨rfl, rfl, rfl⟩

/-- C2 amended: `connect` attempts the MCP channel under the 5-second
bound and on timeout, a `False` return or an exception falls back to the
direct XML-RPC channel built from the environment credentials, setting the
sticky fallback flag when the direct connection succeeds.  After the flag
is set, `create_invoice` invokes the fallback channel exactly once per
call and the MCP channel zero times — but `get_total_revenue` always
invokes the MCP channel and never the fallback. -/
theorem transport_fallback_behavior (env : ConnectEnv) (st : SkillState)
    (callOk : Bool) :
    ((env.mcpDuration > mcpConnectTimeoutSecs ∨ env.mcpResult = .raised ∨
        env.mcpResult = .returns false) →
      (skillConnect env st).calls = [Channel.mcp, Channel.direct] ∧
      (env.directOk = true →
        (skillConnect env st).ret = true ∧
        (skillConnect env st).st.useFallback = true ∧
        (skillConnect env st).st.directCreds = some env.creds)) ∧
    (st.connected = true → st.useFallback = true →
      st.directCreds.isSome = true →
      (skillCreateInvoice env callOk st).calls = [Channel.direct]) ∧
    (st.connected = true →
      (skillGetTotalRevenue env callOk st).calls = [Channel.mcp]) := by
  refine ⟨?_, ?_, ?_⟩
  · intro hfail
    have hms : ¬ (env.mcpDuration ≤ mcpConnectTimeoutSecs ∧
        env.mcpResult = .returns true) := by
      rcases hfail with h | h | h
      · intro hc
        omega
      · intro hc
        rw [h] at hc
        cases hc.2
      · intro hc
        rw [h] at hc
        cases hc.2
    unfold skillConnect
    rw [if_neg hms]
    by_cases hd : env.directOk = true
    · rw [if_pos hd]
      exact ⟨rfl, fun _ => ⟨rfl, rfl, rfl⟩⟩
    · rw [if_neg hd]
      exact ⟨rfl, fun h => absurd h hd⟩
  · intro hconn hfb hdc
    unfold skillCreateInvoice ensureConnected
    simp [hconn, hfb, hdc]
  · intro hconn
    unfold skillGetTotalRevenue ensureConnected
    simp [hconn]

/-- C2 witness. -/
theorem transport_fallback_behavior_witness :
    (skillCreateInvoice ⟨6, MCPResult.raised, true,
        ⟨"http://localhost:8069", "hackathon_db", "admin", "admin"⟩⟩ true
      ⟨true, true, some ⟨"http://localhost:8069", "hackathon_db", "admin",
        "admin"⟩, true, false⟩).calls = [Channel.direct] :=
  (transport_fallback_behavior ⟨6, MCPResult.raised, true,
      ⟨"http://localhost:8069", "hackathon_db", "admin", "admin"⟩⟩
    ⟨true, true, some ⟨"http://localhost:8069", "hackathon_db", "admin",
      "admin"⟩, true, false⟩ true).2.1 rfl rfl rfl

/-! ## Claim C8 — argument synonym normalization -/

theorem mapStep_fires (m : Dict) (p : String × String) (v : String)
    (h1 : dlookup m p.1 = some v) (h2 : dlookup m p.2 = none) :
    mapStep m p = derase m p.1 ++ [(p.2, v)] := by
  unfold mapStep
  rw [if_pos ⟨by simp [dcontains, h1], by simp [dcontains, h2]⟩]
  rw [h1]
  rfl

theorem mapStep_skips_of_src_absent (m : Dict) (p : String × String)
    (h : dlookup m p.1 = none) : mapStep m p = m := by
  unfold mapStep
  rw [if_neg]
  intro hc
  simp [dcontains, h] at hc

theorem mapStep_skips_of_target_present (m : Dict) (p : String × String)
    (w : String) (h : dlookup m p.2 = some w) : mapStep m p = m := by
  unfold mapStep
  rw [if_neg]
  intro hc
  simp [dcontains, h] at hc

theorem mapStep_lookup_of_ne (m : Dict) (p : String × String) (k : String)
    (h1 : p.1 ≠ k) (h2 : p.2 ≠ k) :
    dlookup (mapStep m p) k = dlookup m k := by
  unfold mapStep
  by_cases hc : dcontains m p.1 = true ∧ dcontains m p.2 = false
  · rw [if_pos hc]
    rw [dlookup_append]
    rw [dlookup_derase]
    rw [if_neg h1]
    cases hk : dlookup m k with
    | none => simp [dlookup, h2]
    | some w => rfl
  · rw [if_neg hc]

theorem mapStep_lookup_some (m : Dict) (p : String × String)
    (k v : String) (h1 : p.1 ≠ k) (hk : dlookup m k = some v) :
    dlookup (mapStep m p) k = some v := by
  by_cases h2 : p.2 = k
  · rw [mapStep_skips_of_target_present m p v (by rw [h2]; exact hk)]
    exact hk
  · rw [mapStep_lookup_of_ne m p k h1 h2]
    exact hk

theorem mapStep_lookup_none (m : Dict) (p : String × String) (k : String)
    (h2 : p.2 ≠ k) (hk : dlookup m k = none) :
    dlookup (mapStep m p) k = none := by
  by_cases h1 : p.1 = k
  · rw [mapStep_skips_of_src_absent m p (by rw [h1]; exact hk)]
    exact hk
  · rw [mapStep_lookup_of_ne m p k h1 h2]
    exact hk

theorem foldl_mapStep_lookup_some (L : List (String × String)) (m : Dict)
    (k v : String) (h1 : ∀ p ∈ L, p.1 ≠ k)
    (hk : dlookup m k = some v) :
    dlookup (L.foldl mapStep m) k = some v := by
  induction L generalizing m with
  | nil => exact hk
  | cons p L' ih =>
    rw [List.foldl_cons]
    exact ih (mapStep m p)
      (fun q hq => h1 q (List.mem_cons_of_mem p hq))
      (mapStep_lookup_some m p k v (h1 p (List.mem_cons_self p L')) hk)

theorem foldl_mapStep_lookup_none (L : List (String × String)) (m : Dict)
    (k : String) (h2 : ∀ p ∈ L, p.2 ≠ k) (hk : dlookup m k = none) :
    dlookup (L.foldl mapStep m) k = none := by
  induction L generalizing m with
  | nil => exact hk
  | cons p L' ih =>
    rw [List.foldl_cons]
    exact ih (mapStep m p)
      (fun q hq => h2 q (List.mem_cons_of_mem p hq))
      (mapStep_lookup_none m p k (h2 p (List.mem_cons_self p L')) hk)

theorem foldl_mapStep_lookup_untouched (L : List (String × String))
    (m : Dict) (k : String) (h : ∀ p ∈ L, p.1 ≠ k ∧ p.2 ≠ k) :
    dlookup (L.foldl mapStep m) k = dlookup m k := by
  induction L generalizing m with
  | nil => rfl
  | cons p L' ih =>
    rw [List.foldl_cons]
    rw [ih (mapStep m p) (fun q hq => h q (List.mem_cons_of_mem p hq))]
    exact mapStep_lookup_of_ne m p k (h p (List.mem_cons_self p L')).1
      (h p (List.mem_cons_self p L')).2

theorem foldl_mapStep_keep_synonym (L : List (String × String))
    (m : Dict) (k t w : String) (hkt : ∀ p ∈ L, p.1 = k → p.2 = t)
    (h1 : ∀ p ∈ L, p.1 ≠ t) (h3 : ∀ p ∈ L, p.2 ≠ k)
    (ht : dlookup m t = some w) :
    dlookup (L.foldl mapStep m) k = dlookup m k ∧
    dlookup (L.foldl mapStep m) t = some w := by
  induction L generalizing m with
  | nil => exact ⟨rfl, ht⟩
  | cons p L' ih =>
    have hstep_t : dlookup (mapStep m p) t = some w :=
      mapStep_lookup_some m p t w (h1 p (List.mem_cons_self p L')) ht
    have hstep_k : dlookup (mapStep m p) k = dlookup m k := by
      by_cases hp1 : p.1 = k
      · rw [mapStep_skips_of_target_present m p w
          (by rw [hkt p (List.mem_cons_self p L') hp1]; exact ht)]
      · exact mapStep_lookup_of_ne m p k hp1
          (h3 p (List.mem_cons_self p L'))
    rw [List.foldl_cons]
    have := ih (mapStep m p)
      (fun q hq => hkt q (List.mem_cons_of_mem p hq))
      (fun q hq => h1 q (List.mem_cons_of_mem p hq))
      (fun q hq => h3 q (List.mem_cons_of_mem p hq))
      hstep_t
    exact ⟨this.1.trans hstep_k, this.2⟩

/-- Renaming through the whole loop: when `(old, new)` is one of the
rename pairs, the synonym `old` is present, the canonical `new` is absent
and no other synonym of the same canonical key is present, the loop moves
the value from `old` to `new`.  The two side conditions (no source key is
also a target key; equal source keys map to equal targets) hold for the
concrete `arg_mapping`. -/
theorem foldl_mapStep_rename (L : List (String × String))
    (hdisj : ∀ q ∈ L, ∀ q' ∈ L, q.1 ≠ q'.2)
    (huniq : ∀ q ∈ L, ∀ q' ∈ L, q.1 = q'.1 → q.2 = q'.2) :
    ∀ (m : Dict) (old new v : String), (old, new) ∈ L →
      dlookup m old = some v → dlookup m new = none →
      (∀ q ∈ L, q.2 = new → q.1 ≠ old → dlookup m q.1 = none) →
      dlookup (L.foldl mapStep m) new = some v ∧
      dlookup (L.foldl mapStep m) old = none := by
  induction L with
  | nil =>
    intro m old new v hmem _ _ _
    cases hmem
  | cons q L' ih =>
    intro m old new v hmem hsrc hnew hother
    have hhead := List.mem_cons_self q L'
    rw [List.foldl_cons]
    by_cases hqeq : q = (old, new)
    · subst hqeq
      have hne : old ≠ new := hdisj (old, new) hhead (old, new) hhead
      rw [mapStep_fires m (old, new) v hsrc hnew]
      constructor
      · apply foldl_mapStep_lookup_some L' _ new v
        · intro p hp
          exact hdisj p (List.mem_cons_of_mem (old, new) hp) (old, new)
            hhead
        · rw [dlookup_append]
          rw [dlookup_derase]
          rw [if_neg hne]
          rw [hnew]
          simp [dlookup]
      · apply foldl_mapStep_lookup_none L' _ old
        · intro p hp
          exact Ne.symm (hdisj (old, new) hhead p
            (List.mem_cons_of_mem (old, new) hp))
        · rw [dlookup_append]
          rw [dlookup_derase]
          rw [if_pos rfl]
          simp only [dlookup]
          rw [if_neg (fun h => hne h.symm)]
    · have hmem' : (old, new) ∈ L' := by
        rcases List.mem_cons.mp hmem with h | h
        · exact absurd h.symm hqeq
        · exact h
      have hq1 : q.1 ≠ old := by
        intro h
        have h2 := huniq q hhead (old, new) hmem h
        exact hqeq (Prod.ext h h2)
      have f1 : dlookup (mapStep m q) old = some v :=
        mapStep_lookup_some m q old v hq1 hsrc
      have f2 : dlookup (mapStep m q) new = none := by
        by_cases hq2 : q.2 = new
        · rw [mapStep_skips_of_src_absent m q (hother q hhead hq2 hq1)]
          exact hnew
        · exact mapStep_lookup_none m q new hq2 hnew
      have f3 : ∀ q' ∈ L', q'.2 = new → q'.1 ≠ old →
          dlookup (mapStep m q) q'.1 = none := by
        intro q' hq' h2 h3
        exact mapStep_lookup_none m q q'.1
          (Ne.symm (hdisj q' (List.mem_cons_of_mem q hq') q hhead))
          (hother q' (List.mem_cons_of_mem q hq') h2 h3)
      exact ih
        (fun a ha b hb => hdisj a (List.mem_cons_of_mem q ha)
          b (List.mem_cons_of_mem q hb))
        (fun a ha b hb => huniq a (List.mem_cons_of_mem q ha)
          b (List.mem_cons_of_mem q hb))
        (mapStep m q) old new v hmem' f1 f2 f3

/-- C8: the synonym normalization of `_execute_odoo_action`.
(i) A canonical key (`client_name`/`amount`/`description`) already present
in the arguments keeps its original value — no overwrite.
(ii) Keys outside the synonym map (neither a synonym nor a canonical key)
are unchanged.
(iii) Each synonym pair of the fixed map (customer/partner_name/client/
company to client_name, cost/price/total/value to amount, and
desc/details/note/memo to description) renames its key to the canonical
key — carrying the value over and removing the synonym key — when the
canonical key is not present (and no sibling synonym competes).
(iv) When the canonical key is already present, the synonym key is NOT
renamed: it survives with its original value. -/
theorem arg_synonym_normalization (args : Dict) :
    (∀ k v, k ∈ (["client_name", "amount", "description"] : List String) →
      dlookup args k = some v → dlookup (applyArgMapping args) k = some v) ∧
    (∀ k, (∀ p ∈ argMapping, p.1 ≠ k ∧ p.2 ≠ k) →
      dlookup (applyArgMapping args) k = dlookup args k) ∧
    (∀ old new v, (old, new) ∈ argMapping →
      dlookup args old = some v → dlookup args new = none →
      (∀ q ∈ argMapping, q.2 = new → q.1 ≠ old →
        dlookup args q.1 = none) →
      dlookup (applyArgMapping args) new = some v ∧
      dlookup (applyArgMapping args) old = none) ∧
    (∀ w, dlookup args "client_name" = some w →
      dlookup (applyArgMapping args) "customer" = dlookup args "customer" ∧
      dlookup (applyArgMapping args) "client_name" = some w) := by
  refine ⟨?_, ?_, ?_, ?_⟩
  · intro k v hk hv
    apply foldl_mapStep_lookup_some argMapping args k v _ hv
    simp only [List.mem_cons, List.not_mem_nil, or_false] at hk
    rcases hk with h | h | h <;> subst h <;> decide
  · intro k hk
    exact foldl_mapStep_lookup_untouched argMapping args k hk
  · intro old new v hmem hsrc hnew hother
    exact foldl_mapStep_rename argMapping (by decide) (by decide)
      args old new v hmem hsrc hnew hother
  · intro w hw
    exact foldl_mapStep_keep_synonym argMapping args "customer"
      "client_name" w (by decide) (by decide) (by decide) hw

/-- C8 witness. -/
theorem arg_synonym_normalization_witness :
    dlookup (applyArgMapping [("client_name", "X"), ("customer", "ACME")])
      "client_name" = some "X" ∧
    dlookup (applyArgMapping [("client_name", "X"), ("customer", "ACME")])
      "customer" = some "ACME" ∧
    dlookup (applyArgMapping [("price", "100")]) "amount" = some "100" ∧
    dlookup (applyArgMapping [("price", "100")]) "price" = none := by
  refine ⟨?_, ?_, ?_, ?_⟩
  · exact (arg_synonym_normalization
      [("client_name", "X"), ("customer", "ACME")]).1 "client_name" "X"
      (by decide) rfl
  · exact ((arg_synonym_normalization
      [("client_name", "X"), ("customer", "ACME")]).2.2.2 "X" rfl).1
  · exact ((arg_synonym_normalization [("price", "100")]).2.2.1
      "price" "amount" "100" (by decide) rfl rfl (by decide)).1
  · exact ((arg_synonym_normalization [("price", "100")]).2.2.1
      "price" "amount" "100" (by decide) rfl rfl (by decide)).2

end Orchestrator
